import Mathlib

/-!
Verification of the mini-task-manager HTTP service (src/backend/app.py).

The service is a Flask CRUD app over a SQLite table `tasks`.  We embed it
shallowly: the database is a `Store` (the list of rows in insertion order
together with the AUTOINCREMENT sequence counter), request bodies are
optional JSON objects (association lists of string keys to JSON values),
and each Flask handler becomes a pure function from a store and its inputs
to an `Outcome` (a response paired with the resulting store, or an escaped
exception).  `datetime.now()` is passed in as an explicit `now` argument,
and the success of the unguarded `log_request` call is passed in as a
`logOk` flag: when the append to `api_logs.txt` raises, the exception
escapes the handler (there is no try/except around the log call), which we
model as the `Outcome.exc` constructor.
-/

namespace TaskManager

/-- A JSON value as Python sees it after `request.get_json()`.  Only the
shapes that can influence the handlers are distinguished. -/
inductive JVal where
  | str (s : String)
  | num (n : Int)
  | boolean (b : Bool)
  | null
  deriving DecidableEq, Repr

/-- A parsed JSON object body: an association list from keys to values. -/
abbrev Obj := List (String × JVal)

/-- A row of the `tasks` table. -/
structure Task where
  task_id : Nat
  task_title : String
  task_status : String
  created_at : String
  deriving DecidableEq, Repr

/-- The database state: the rows of `tasks` in insertion order, plus the
AUTOINCREMENT sequence (the largest task_id ever assigned; AUTOINCREMENT
never reuses ids, even after deletes). -/
structure Store where
  tasks : List Task
  seq : Nat
  deriving DecidableEq, Repr

/-- The state produced by `setup_database`: an empty `tasks` table with the
sequence at 0 (the first assigned id is 1). -/
def setup_database : Store := ⟨[], 0⟩

/-- Result of running one Flask handler: a response (status code and body)
with the store it leaves behind, or an exception that escaped the handler. -/
inductive Body where
  | task (t : Task)
  | taskList (l : List Task)
  | err (msg : String)
  | empty
  deriving DecidableEq, Repr

structure HttpResponse where
  status : Nat
  body : Body
  deriving DecidableEq, Repr

inductive Outcome where
  | ok (resp : HttpResponse) (s : Store)
  | exc (s : Store)
  deriving DecidableEq, Repr

/-- The store an outcome leaves behind. -/
def Outcome.store : Outcome → Store
  | .ok _ s => s
  | .exc s => s

/-- Python `str.strip` on the underlying character list: drop whitespace
from the left, then from the right. -/
def stripList (l : List Char) : List Char :=
  ((l.dropWhile Char.isWhitespace).reverse.dropWhile Char.isWhitespace).reverse

/-- Python `str.strip`. -/
def pyStrip (s : String) : String := String.mk (stripList s.data)

/-- Python `not data` for the parsed body: true when the body is absent
(`None`) or is the empty object (an empty dict is falsy). -/
def bodyFalsy : Option Obj → Bool
  | none => true
  | some o => o.isEmpty

/-- The value `modify_task` would store for the title field, mirroring
`if title and isinstance(title, str) and title.strip():
updates['task_title'] = title.strip()`.  A missing key, a non-string value,
a falsy value, or a whitespace-only string all yield `none`; `create_task`
performs the same test (`not title or not isinstance(title, str) or not
title.strip()`) and likewise stores `title.strip()`. -/
def updTitleOf (data : Obj) : Option String :=
  match data.lookup "task_title" with
  | some (JVal.str t) => if t ≠ "" ∧ pyStrip t ≠ "" then some (pyStrip t) else none
  | _ => none

/-- The value `modify_task` would store for the status field, mirroring
`if status in ['pending', 'done']: updates['task_status'] = status`.
Python `in` tests equality, which only a string can satisfy here. -/
def updStatusOf (data : Obj) : Option String :=
  match data.lookup "task_status" with
  | some (JVal.str st) => if st = "pending" ∨ st = "done" then some st else none
  | _ => none

/-- Python `status in ['pending', 'done']` for an arbitrary JSON value. -/
def statusListed (v : JVal) : Bool :=
  v == JVal.str "pending" || v == JVal.str "done"

/-- The string content of a JSON value (defined for strings). -/
def JVal.asStr : JVal → String
  | .str s => s
  | _ => ""

/-- `SELECT * FROM tasks WHERE task_id = ?` followed by `fetchone()`. -/
def dbFind (s : Store) (id : Nat) : Option Task :=
  s.tasks.find? (fun t => t.task_id == id)

/-- GET /tasks (`fetch_all_tasks`). -/
def fetch_all_tasks (logOk : Bool) (s : Store) : Outcome :=
  if logOk then Outcome.ok ⟨200, Body.taskList s.tasks⟩ s
  else Outcome.exc s

/-- POST /tasks (`create_task`).  `now` is the value of
`datetime.now().isoformat()` during the call. -/
def create_task (logOk : Bool) (now : String) (s : Store) (body : Option Obj) :
    Outcome :=
  if logOk then
    if bodyFalsy body then Outcome.ok ⟨400, Body.err "No JSON data provided"⟩ s
    else
      let data := body.getD []
      match updTitleOf data with
      | none => Outcome.ok ⟨400, Body.err "Task title must be a non-empty string"⟩ s
      | some cleanTitle =>
        let status := (data.lookup "task_status").getD (JVal.str "pending")
        if statusListed status then
          let t : Task := ⟨s.seq + 1, cleanTitle, status.asStr, now⟩
          let s' : Store := ⟨s.tasks ++ [t], s.seq + 1⟩
          match dbFind s' (s.seq + 1) with
          | some row => Outcome.ok ⟨201, Body.task row⟩ s'
          | none => Outcome.ok ⟨500, Body.err "Could not fetch new task"⟩ s'
        else Outcome.ok ⟨400, Body.err "Status must be pending or done"⟩ s
  else Outcome.exc s

/-- GET /tasks/id (`fetch_task`). -/
def fetch_task (logOk : Bool) (s : Store) (id : Nat) : Outcome :=
  if logOk then
    match dbFind s id with
    | none => Outcome.ok ⟨404, Body.err "Task not found"⟩ s
    | some t => Outcome.ok ⟨200, Body.task t⟩ s
  else Outcome.exc s

/-- The row transformation performed by
`UPDATE tasks SET ... WHERE task_id = ?` with the fields of the
`updates` dict: rows with a different id are untouched. -/
def applyUpdates (id : Nat) (ti st : Option String) (t : Task) : Task :=
  if t.task_id == id then
    ⟨t.task_id, ti.getD t.task_title, st.getD t.task_status, t.created_at⟩
  else t

/-- PUT /tasks/id (`modify_task`). -/
def modify_task (logOk : Bool) (s : Store) (id : Nat) (body : Option Obj) :
    Outcome :=
  if logOk then
    if bodyFalsy body then Outcome.ok ⟨400, Body.err "No JSON data provided"⟩ s
    else
      let data := body.getD []
      if (updTitleOf data).isNone && (updStatusOf data).isNone then
        Outcome.ok ⟨400, Body.err "Nothing to update"⟩ s
      else
        match dbFind s id with
        | none => Outcome.ok ⟨404, Body.err "Task not found"⟩ s
        | some _ =>
          let s' : Store :=
            ⟨s.tasks.map (applyUpdates id (updTitleOf data) (updStatusOf data)), s.seq⟩
          match dbFind s' id with
          | some row => Outcome.ok ⟨200, Body.task row⟩ s'
          | none => Outcome.ok ⟨500, Body.err "Could not fetch updated task"⟩ s'
  else Outcome.exc s

/-- DELETE /tasks/id (`remove_task`). -/
def remove_task (logOk : Bool) (s : Store) (id : Nat) : Outcome :=
  if logOk then
    match dbFind s id with
    | none => Outcome.ok ⟨404, Body.err "Task not found"⟩ s
    | some _ =>
      Outcome.ok ⟨204, Body.empty⟩ ⟨s.tasks.filter (fun t => !(t.task_id == id)), s.seq⟩
  else Outcome.exc s

/-- One API operation (with its request-specific inputs). -/
inductive Op where
  | create (now : String) (body : Option Obj)
  | fetchAll
  | fetch (id : Nat)
  | modify (id : Nat) (body : Option Obj)
  | remove (id : Nat)

/-- Dispatch an operation to its handler (with the request log writable). -/
def applyOp (s : Store) : Op → Outcome
  | .create now body => create_task true now s body
  | .fetchAll => fetch_all_tasks true s
  | .fetch id => fetch_task true s id
  | .modify id body => modify_task true s id body
  | .remove id => remove_task true s id

/-- The store after one operation. -/
def step (s : Store) (op : Op) : Store := (applyOp s op).store

/-- A sample row used for concrete instantiations. -/
def sampleTask : Task := ⟨1, "A", "pending", "T0"⟩

/-- A sample one-row store used for concrete instantiations. -/
def sampleStore : Store := ⟨[sampleTask], 1⟩

/-- Well-formedness of a single row, as stated by the data-model
invariants: the status is one of the two enum values and the title is not
empty or whitespace-only. -/
def Task.wf (t : Task) : Prop :=
  (t.task_status = "pending" ∨ t.task_status = "done") ∧ pyStrip t.task_title ≠ ""

/-- The store invariant: every row is well formed, ids are pairwise
distinct, and no id exceeds the sequence counter (so a freshly assigned id
is new). -/
def Store.inv (s : Store) : Prop :=
  (∀ t ∈ s.tasks, t.task_id ≤ s.seq)
  ∧ s.tasks.Pairwise (fun a b => a.task_id ≠ b.task_id)
  ∧ (∀ t ∈ s.tasks, Task.wf t)

/-- Every stored title is already stripped. -/
def titlesTrimmed (s : Store) : Prop :=
  ∀ t ∈ s.tasks, pyStrip t.task_title = t.task_title

/-- The task id carried by a 201 response, if the outcome is one. -/
def assignedId : Outcome → Option Nat
  | .ok resp _ =>
    if resp.status == 201 then
      match resp.body with
      | .task t => some t.task_id
      | _ => none
    else none
  | .exc _ => none

/-- The ids assigned by the 201 responses along a run of operations, in
assignment order. -/
def runTrace (s : Store) : List Op → List Nat
  | [] => []
  | op :: ops =>
    (match assignedId (applyOp s op) with
     | some i => [i]
     | none => []) ++ runTrace (step s op) ops

/-! Basic lemmas about `pyStrip`. -/

lemma dropWhile_head_false {α} {p : α → Bool} {l : List α} {a : α} {t : List α}
    (h : l.dropWhile p = a :: t) : p a = false := by
  have hh := List.head?_dropWhile_not p l
  rw [h] at hh
  simpa using hh

lemma stripList_idem (l : List Char) : stripList (stripList l) = stripList l := by
  have hsplit := List.takeWhile_append_dropWhile (p := Char.isWhitespace)
      (l := (l.dropWhile Char.isWhitespace).reverse)
  cases hB : (l.dropWhile Char.isWhitespace).reverse.dropWhile Char.isWhitespace with
  | nil => simp [stripList, hB]
  | cons b t =>
    have hwb : Char.isWhitespace b = false := dropWhile_head_false hB
    rw [hB] at hsplit
    have h2 := congrArg List.reverse hsplit
    rw [List.reverse_append, List.reverse_cons, List.reverse_reverse] at h2
    obtain ⟨w, hw⟩ : ∃ w, t.reverse ++ [b] ++ w = l.dropWhile Char.isWhitespace := ⟨_, h2⟩
    have hhead : ∃ x xs, t.reverse ++ [b] = x :: xs ∧ Char.isWhitespace x = false := by
      cases htr : t.reverse with
      | nil => exact ⟨b, [], by simp, hwb⟩
      | cons c r =>
        refine ⟨c, r ++ [b], by simp, ?_⟩
        have hA' : l.dropWhile Char.isWhitespace = c :: ((r ++ [b]) ++ w) := by
          rw [← hw, htr]
          simp
        exact dropWhile_head_false hA'
    obtain ⟨x, xs, hxe, hwx⟩ := hhead
    have hstrip : stripList l = t.reverse ++ [b] := by
      simp [stripList, hB]
    rw [hstrip]
    unfold stripList
    rw [hxe, List.dropWhile_cons_of_neg (by simp [hwx]), ← hxe]
    have hrev : (t.reverse ++ [b]).reverse = b :: t := by simp
    rw [hrev, List.dropWhile_cons_of_neg (by simp [hwb])]
    simp

lemma pyStrip_idem (s : String) : pyStrip (pyStrip s) = pyStrip s :=
  congrArg String.mk (stripList_idem s.data)

/-! Basic lemmas about `applyUpdates` and `dbFind`. -/

lemma applyUpdates_task_id (id : Nat) (ti st : Option String) (t : Task) :
    (applyUpdates id ti st t).task_id = t.task_id := by
  unfold applyUpdates
  split <;> rfl

lemma applyUpdates_created_at (id : Nat) (ti st : Option String) (t : Task) :
    (applyUpdates id ti st t).created_at = t.created_at := by
  unfold applyUpdates
  split <;> rfl

lemma dbFind_map_applyUpdates (l : List Task) (id k : Nat) (ti st : Option String) :
    (l.map (applyUpdates id ti st)).find? (fun t => t.task_id == k)
      = (l.find? (fun t => t.task_id == k)).map (applyUpdates id ti st) := by
  rw [List.find?_map]
  simp [Function.comp_def, applyUpdates_task_id]

/-! The claims. -/

/-- Claim C9: a POST /tasks or PUT /tasks/id whose body is the
syntactically valid but empty JSON object is rejected with 400 and the
error message No JSON data provided, exactly as when the body is missing;
the result does not depend on the store, the id, or any field values, so
the check precedes field validation and the id-existence check. -/
theorem empty_object_rejected (now : String) (s : Store) (id : Nat) :
    create_task true now s (some []) = create_task true now s none
    ∧ create_task true now s (some [])
        = Outcome.ok ⟨400, Body.err "No JSON data provided"⟩ s
    ∧ modify_task true s id (some []) = modify_task true s id none
    ∧ modify_task true s id (some [])
        = Outcome.ok ⟨400, Body.err "No JSON data provided"⟩ s :=
  ⟨rfl, rfl, rfl, rfl⟩

/-- Claim C8 evidence: the log append in the handlers is unguarded, so a
failing append aborts the request with an escaped exception instead of the
response the handler would otherwise produce.  At the same valid POST
/tasks input, a failing log yields an escaped exception while a working
log yields 201, so a logging failure does propagate into the HTTP
response, contradicting the claim. -/
theorem log_failure_changes_outcome :
    create_task false "2025-01-01T00:00:00" setup_database
        (some [("task_title", JVal.str "A")])
      = Outcome.exc setup_database
    ∧ create_task true "2025-01-01T00:00:00" setup_database
        (some [("task_title", JVal.str "A")])
      = Outcome.ok ⟨201, Body.task ⟨1, "A", "pending", "2025-01-01T00:00:00"⟩⟩
          ⟨[⟨1, "A", "pending", "2025-01-01T00:00:00"⟩], 1⟩ :=
  ⟨rfl, by decide⟩

/-- Claim C3 counterexample: with task id 1 present in the store, a PUT
for id 1 whose body is the empty JSON object returns 400 with the message
No JSON data provided, not the claimed Nothing to update. -/
theorem put_empty_object_message :
    dbFind sampleStore 1 = some sampleTask
    ∧ modify_task true sampleStore 1 (some [])
        = Outcome.ok ⟨400, Body.err "No JSON data provided"⟩ sampleStore
    ∧ Body.err "No JSON data provided" ≠ Body.err "Nothing to update" :=
  ⟨rfl, rfl, by decide⟩

/-- Claim C3 (amended): for every task id, a PUT whose body is a nonempty
JSON object containing no valid field returns 400 with body error Nothing
to update - whether or not the id exists - and the returned store is the
input store, untouched; the empty JSON object is instead rejected earlier
with 400 No JSON data provided. -/
theorem put_no_valid_fields (s : Store) (id : Nat) (data : Obj)
    (hne : data ≠ []) (h1 : updTitleOf data = none) (h2 : updStatusOf data = none) :
    modify_task true s id (some data)
      = Outcome.ok ⟨400, Body.err "Nothing to update"⟩ s := by
  have hbf : bodyFalsy (some data) = false := by
    cases data with
    | nil => exact absurd rfl hne
    | cons a l => rfl
  simp [modify_task, hbf, h1, h2]

/-- Witness for put_no_valid_fields: the body with only the invalid status
value archived satisfies the hypotheses and is rejected as Nothing to
update at an existing id. -/
theorem put_no_valid_fields_witness :
    (([("task_status", JVal.str "archived")] : Obj) ≠ []
      ∧ updTitleOf [("task_status", JVal.str "archived")] = none
      ∧ updStatusOf [("task_status", JVal.str "archived")] = none)
    ∧ modify_task true sampleStore 1 (some [("task_status", JVal.str "archived")])
        = Outcome.ok ⟨400, Body.err "Nothing to update"⟩ sampleStore :=
  ⟨⟨by decide, by decide, by decide⟩,
    put_no_valid_fields sampleStore 1 [("task_status", JVal.str "archived")]
      (by decide) (by decide) (by decide)⟩

/-- Claim C1: whenever a create request returns 201 carrying a task, a GET
of that task's id against the store the create left behind returns 200
with exactly the same task, so task_title, task_status and created_at
round-trip identically. -/
theorem create_then_fetch_roundtrip (now : String) (s : Store) (body : Option Obj)
    (resp : HttpResponse) (t : Task) (s' : Store)
    (hc : create_task true now s body = Outcome.ok resp s')
    (h201 : resp.status = 201) (hb : resp.body = Body.task t) :
    fetch_task true s' t.task_id = Outcome.ok ⟨200, Body.task t⟩ s' := by
  unfold create_task at hc
  rw [if_pos rfl] at hc
  split at hc
  · injection hc with h1 h2
    rw [← h1] at h201
    simp at h201
  · dsimp only at hc
    split at hc
    · injection hc with h1 h2
      rw [← h1] at h201
      simp at h201
    · split at hc
      · split at hc
        · rename_i row heq
          injection hc with h1 h2
          rw [← h1] at hb h201
          simp at hb
          subst hb
          subst h2
          have hid := List.find?_some heq
          simp at hid
          rw [fetch_task, if_pos rfl, hid]
          rw [heq]
        · injection hc with h1 h2
          rw [← h1] at h201
          simp at h201
      · injection hc with h1 h2
        rw [← h1] at h201
        simp at h201

/-- Witness for create_then_fetch_roundtrip: a concrete create on the
empty store returns 201 with task id 1 and fetching id 1 returns the same
task. -/
theorem create_then_fetch_roundtrip_witness :
    create_task true "T1" setup_database (some [("task_title", JVal.str "A")])
      = Outcome.ok ⟨201, Body.task ⟨1, "A", "pending", "T1"⟩⟩
          ⟨[⟨1, "A", "pending", "T1"⟩], 1⟩
    ∧ fetch_task true ⟨[⟨1, "A", "pending", "T1"⟩], 1⟩ 1
      = Outcome.ok ⟨200, Body.task ⟨1, "A", "pending", "T1"⟩⟩
          ⟨[⟨1, "A", "pending", "T1"⟩], 1⟩ :=
  ⟨by decide,
    create_then_fetch_roundtrip "T1" setup_database (some [("task_title", JVal.str "A")])
      ⟨201, Body.task ⟨1, "A", "pending", "T1"⟩⟩ ⟨1, "A", "pending", "T1"⟩
      ⟨[⟨1, "A", "pending", "T1"⟩], 1⟩ (by decide) rfl rfl⟩

/-- Claim C4: a create whose body has a valid title and no task_status key
succeeds with 201, stores and returns the stripped title, status pending
and the current timestamp, appending the row with the next id; in the
concrete scenario the title padded with spaces around Buy milk comes back
as Buy milk with status pending. -/
theorem create_trims_and_defaults (now : String) (s : Store) (data : Obj) (ti : String)
    (hIds : ∀ u ∈ s.tasks, u.task_id ≤ s.seq)
    (hti : data.lookup "task_title" = some (JVal.str ti))
    (hne : ti ≠ "") (htr : pyStrip ti ≠ "")
    (hst : data.lookup "task_status" = none) :
    create_task true now s (some data)
      = Outcome.ok ⟨201, Body.task ⟨s.seq + 1, pyStrip ti, "pending", now⟩⟩
          ⟨s.tasks ++ [⟨s.seq + 1, pyStrip ti, "pending", now⟩], s.seq + 1⟩
    ∧ create_task true "2025-01-01T00:00:00" setup_database
        (some [("task_title", JVal.str " Buy milk ")])
      = Outcome.ok ⟨201, Body.task ⟨1, "Buy milk", "pending", "2025-01-01T00:00:00"⟩⟩
          ⟨[⟨1, "Buy milk", "pending", "2025-01-01T00:00:00"⟩], 1⟩ := by
  have hbf : bodyFalsy (some data) = false := by
    cases data with
    | nil => simp at hti
    | cons a l => rfl
  have ht : updTitleOf data = some (pyStrip ti) := by
    unfold updTitleOf
    rw [hti]
    dsimp only
    rw [if_pos ⟨hne, htr⟩]
  have hsl : statusListed (JVal.str "pending") = true := rfl
  have hfind : dbFind ⟨s.tasks ++ [⟨s.seq + 1, pyStrip ti, "pending", now⟩], s.seq + 1⟩
      (s.seq + 1) = some ⟨s.seq + 1, pyStrip ti, "pending", now⟩ := by
    unfold dbFind
    rw [List.find?_append]
    have h1 : s.tasks.find? (fun u => u.task_id == s.seq + 1) = none := by
      rw [List.find?_eq_none]
      intro x hx
      have hle := hIds x hx
      simp
      omega
    rw [h1]
    simp
  refine ⟨?_, by decide⟩
  simp [create_task, hbf, ht, hst, hsl, hfind, JVal.asStr]

/-- Witness for create_trims_and_defaults: the Buy milk scenario itself
satisfies the hypotheses on the empty store. -/
theorem create_trims_and_defaults_witness :
    ((∀ u ∈ setup_database.tasks, u.task_id ≤ setup_database.seq)
      ∧ ([("task_title", JVal.str " Buy milk ")] : Obj).lookup "task_title"
          = some (JVal.str " Buy milk ")
      ∧ " Buy milk " ≠ ""
      ∧ pyStrip " Buy milk " ≠ ""
      ∧ ([("task_title", JVal.str " Buy milk ")] : Obj).lookup "task_status" = none)
    ∧ create_task true "T1" setup_database (some [("task_title", JVal.str " Buy milk ")])
        = Outcome.ok ⟨201, Body.task ⟨1, pyStrip " Buy milk ", "pending", "T1"⟩⟩
            ⟨setup_database.tasks ++ [⟨1, pyStrip " Buy milk ", "pending", "T1"⟩], 1⟩ :=
  ⟨⟨by decide, by decide, by decide, by decide, by decide⟩,
    (create_trims_and_defaults "T1" setup_database [("task_title", JVal.str " Buy milk ")]
      " Buy milk " (by decide) (by decide) (by decide) (by decide) (by decide)).1⟩

/-- Claim C5: deleting an existing id returns 204 with an empty body and
removes the row; afterwards both GET and DELETE of that id return 404 Task
not found against the new store, and deleting any absent id returns 404
leaving the store exactly as it was. -/
theorem delete_one_shot (s : Store) (id : Nat) (t : Task)
    (hfind : dbFind s id = some t) :
    remove_task true s id
      = Outcome.ok ⟨204, Body.empty⟩ ⟨s.tasks.filter (fun u => !(u.task_id == id)), s.seq⟩
    ∧ fetch_task true ⟨s.tasks.filter (fun u => !(u.task_id == id)), s.seq⟩ id
      = Outcome.ok ⟨404, Body.err "Task not found"⟩
          ⟨s.tasks.filter (fun u => !(u.task_id == id)), s.seq⟩
    ∧ remove_task true ⟨s.tasks.filter (fun u => !(u.task_id == id)), s.seq⟩ id
      = Outcome.ok ⟨404, Body.err "Task not found"⟩
          ⟨s.tasks.filter (fun u => !(u.task_id == id)), s.seq⟩
    ∧ ∀ s' id', dbFind s' id' = none
      → remove_task true s' id' = Outcome.ok ⟨404, Body.err "Task not found"⟩ s' := by
  have hgone : dbFind ⟨s.tasks.filter (fun u => !(u.task_id == id)), s.seq⟩ id = none := by
    unfold dbFind
    rw [List.find?_eq_none]
    intro x hx
    rw [List.mem_filter] at hx
    simpa using hx.2
  refine ⟨?_, ?_, ?_, ?_⟩
  · simp [remove_task, hfind]
  · simp [fetch_task, hgone]
  · simp [remove_task, hgone]
  · intro s' id' h
    simp [remove_task, h]

/-- Witness for delete_one_shot: deleting the sample row with id 1. -/
theorem delete_one_shot_witness :
    dbFind sampleStore 1 = some sampleTask
    ∧ remove_task true sampleStore 1
        = Outcome.ok ⟨204, Body.empty⟩
            ⟨sampleStore.tasks.filter (fun u => !(u.task_id == 1)), sampleStore.seq⟩ :=
  ⟨by decide, (delete_one_shot sampleStore 1 sampleTask (by decide)).1⟩

/-- Claim C2: a PUT at an existing id whose body carries a valid non-empty
title together with a status value outside pending and done updates only
the title - the returned row keeps the old id, status and created_at and
gets the stripped new title - and, for every input whatsoever, the update
operation changes no row's task_id or created_at. -/
theorem update_title_only_frame (s : Store) (id : Nat) (data : Obj) (t0 : Task)
    (ti : String) (v : JVal)
    (hfind : dbFind s id = some t0)
    (hti : data.lookup "task_title" = some (JVal.str ti))
    (hne : ti ≠ "") (htr : pyStrip ti ≠ "")
    (hsv : data.lookup "task_status" = some v)
    (hinv : statusListed v = false) :
    modify_task true s id (some data)
      = Outcome.ok ⟨200, Body.task ⟨t0.task_id, pyStrip ti, t0.task_status, t0.created_at⟩⟩
          ⟨s.tasks.map (applyUpdates id (some (pyStrip ti)) none), s.seq⟩
    ∧ ∀ s' id' body',
        ((modify_task true s' id' body').store).tasks.map (fun u => (u.task_id, u.created_at))
          = s'.tasks.map (fun u => (u.task_id, u.created_at)) := by
  have hbf : bodyFalsy (some data) = false := by
    cases data with
    | nil => simp at hti
    | cons a l => rfl
  have ht : updTitleOf data = some (pyStrip ti) := by
    unfold updTitleOf
    rw [hti]
    dsimp only
    rw [if_pos ⟨hne, htr⟩]
  have hs : updStatusOf data = none := by
    simp [statusListed] at hinv
    unfold updStatusOf
    rw [hsv]
    cases v with
    | str st =>
      dsimp only
      rw [if_neg]
      rintro (h | h) <;> simp [h] at hinv
    | num n => rfl
    | boolean b => rfl
    | null => rfl
  have hfind' : s.tasks.find? (fun u => u.task_id == id) = some t0 := hfind
  have hid : t0.task_id = id := by
    have h := List.find?_some hfind'
    simpa using h
  have hmap : dbFind ⟨s.tasks.map (applyUpdates id (some (pyStrip ti)) none), s.seq⟩ id
      = some ⟨t0.task_id, pyStrip ti, t0.task_status, t0.created_at⟩ := by
    unfold dbFind
    rw [dbFind_map_applyUpdates, hfind']
    simp [applyUpdates, hid]
  constructor
  · simp [modify_task, hbf, ht, hs, hfind, hmap]
  · intro s' id' body'
    unfold modify_task
    rw [if_pos rfl]
    split
    · rfl
    · dsimp only
      split
      · rfl
      · split
        · rfl
        · split
          · simp [Outcome.store, List.map_map, Function.comp_def,
              applyUpdates_task_id, applyUpdates_created_at]
          · simp [Outcome.store, List.map_map, Function.comp_def,
              applyUpdates_task_id, applyUpdates_created_at]

/-- Witness for update_title_only_frame: updating the sample row with a
padded title and the invalid status archived stores the stripped title and
keeps the status pending. -/
theorem update_title_only_frame_witness :
    dbFind sampleStore 1 = some sampleTask
    ∧ statusListed (JVal.str "archived") = false
    ∧ modify_task true sampleStore 1
        (some [("task_title", JVal.str " B "), ("task_status", JVal.str "archived")])
      = Outcome.ok
          ⟨200, Body.task ⟨sampleTask.task_id, pyStrip " B ",
            sampleTask.task_status, sampleTask.created_at⟩⟩
          ⟨sampleStore.tasks.map (applyUpdates 1 (some (pyStrip " B ")) none),
            sampleStore.seq⟩ :=
  ⟨by decide, by decide,
    (update_title_only_frame sampleStore 1
      [("task_title", JVal.str " B "), ("task_status", JVal.str "archived")]
      sampleTask " B " (JVal.str "archived")
      (by decide) (by decide) (by decide) (by decide) (by decide) (by decide)).1⟩

lemma updTitleOf_some (data : Obj) (x : String) (h : updTitleOf data = some x) :
    pyStrip x = x ∧ x ≠ "" := by
  unfold updTitleOf at h
  split at h
  · rename_i t heq
    split at h
    · rename_i hcond
      injection h with h1
      subst h1
      exact ⟨pyStrip_idem t, hcond.2⟩
    · exact absurd h (by simp)
  · exact absurd h (by simp)

lemma updStatusOf_some (data : Obj) (x : String) (h : updStatusOf data = some x) :
    x = "pending" ∨ x = "done" := by
  unfold updStatusOf at h
  split at h
  · rename_i st heq
    split at h
    · rename_i hcond
      injection h with h1
      subst h1
      exact hcond
    · exact absurd h (by simp)
  · exact absurd h (by simp)

lemma statusListed_eq (v : JVal) (h : statusListed v = true) :
    v = JVal.str "pending" ∨ v = JVal.str "done" := by
  simpa [statusListed] using h

lemma find?_filter_of_imp {α} (l : List α) (p q : α → Bool)
    (h : ∀ a, q a = true → p a = true) :
    (l.filter p).find? q = l.find? q := by
  induction l with
  | nil => rfl
  | cons a t ih =>
    by_cases hq : q a = true
    · rw [List.filter_cons_of_pos (h a hq), List.find?_cons_of_pos _ hq,
        List.find?_cons_of_pos _ hq]
    · by_cases hp : p a = true
      · rw [List.filter_cons_of_pos hp, List.find?_cons_of_neg _ (by simp [hq]),
          List.find?_cons_of_neg _ (by simp [hq])]
        exact ih
      · rw [List.filter_cons_of_neg (by simp [hp]), List.find?_cons_of_neg _ (by simp [hq])]
        exact ih

lemma step_fetchAll (s : Store) : step s Op.fetchAll = s := rfl

lemma step_fetch (s : Store) (id : Nat) : step s (Op.fetch id) = s := by
  simp only [step, applyOp]
  unfold fetch_task
  rw [if_pos rfl]
  split <;> rfl

lemma step_create (now : String) (body : Option Obj) (s : Store) :
    step s (Op.create now body) = s
    ∨ ∃ x v, updTitleOf (body.getD []) = some x
        ∧ statusListed v = true
        ∧ v = ((body.getD []).lookup "task_status").getD (JVal.str "pending")
        ∧ step s (Op.create now body)
            = ⟨s.tasks ++ [⟨s.seq + 1, x, JVal.asStr v, now⟩], s.seq + 1⟩ := by
  simp only [step, applyOp]
  unfold create_task
  rw [if_pos rfl]
  split
  · left; rfl
  · dsimp only
    split
    · left; rfl
    · rename_i x hx
      split
      · rename_i hsl
        split
        · right; exact ⟨x, _, hx, hsl, rfl, rfl⟩
        · right; exact ⟨x, _, hx, hsl, rfl, rfl⟩
      · left; rfl

lemma step_modify (s : Store) (id : Nat) (body : Option Obj) :
    step s (Op.modify id body) = s
    ∨ step s (Op.modify id body)
        = ⟨s.tasks.map (applyUpdates id (updTitleOf (body.getD []))
            (updStatusOf (body.getD []))), s.seq⟩ := by
  simp only [step, applyOp]
  unfold modify_task
  rw [if_pos rfl]
  split
  · left; rfl
  · dsimp only
    split
    · left; rfl
    · split
      · left; rfl
      · split
        · right; rfl
        · right; rfl

lemma step_remove (s : Store) (id : Nat) :
    step s (Op.remove id) = s
    ∨ step s (Op.remove id) = ⟨s.tasks.filter (fun u => !(u.task_id == id)), s.seq⟩ := by
  simp only [step, applyOp]
  unfold remove_task
  rw [if_pos rfl]
  split
  · left; rfl
  · right; rfl

lemma applyUpdates_wf (id : Nat) (data : Obj) (u : Task) (hu : Task.wf u) :
    Task.wf (applyUpdates id (updTitleOf data) (updStatusOf data) u) := by
  unfold applyUpdates
  split
  · constructor
    · cases hS : updStatusOf data with
      | none => simpa [Task.wf] using hu.1
      | some x => simpa [Task.wf] using updStatusOf_some data x hS
    · cases hT : updTitleOf data with
      | none => simpa [Task.wf] using hu.2
      | some x =>
        have hx := updTitleOf_some data x hT
        simpa [Task.wf, hx.1] using hx.2
  · exact hu

/-- Claim C6: every operation - create, get, list, update, delete -
preserves the state invariant (unique task ids, status among pending and
done, title never empty or whitespace-only), and never modifies the
created_at of a row that existed before the operation. -/
theorem store_invariant_preserved (s : Store) (op : Op) (h : Store.inv s) :
    Store.inv (step s op)
    ∧ ∀ id t t', dbFind s id = some t → dbFind (step s op) id = some t'
        → t'.created_at = t.created_at := by
  obtain ⟨hIds, hPw, hWf⟩ := h
  have triv : ∀ id t t', dbFind s id = some t → dbFind s id = some t'
      → t'.created_at = t.created_at := by
    intro id t t' h1 h2
    rw [h1] at h2
    injection h2 with h3
    rw [h3]
  cases op with
  | fetchAll =>
    rw [step_fetchAll]
    exact ⟨⟨hIds, hPw, hWf⟩, triv⟩
  | fetch id =>
    rw [step_fetch]
    exact ⟨⟨hIds, hPw, hWf⟩, triv⟩
  | create now body =>
    rcases step_create now body s with hs | ⟨x, v, hx, hv, _, hs⟩
    · rw [hs]; exact ⟨⟨hIds, hPw, hWf⟩, triv⟩
    · rw [hs]
      obtain ⟨hxt, hxne⟩ := updTitleOf_some _ _ hx
      have hvs : JVal.asStr v = "pending" ∨ JVal.asStr v = "done" := by
        rcases statusListed_eq v hv with h | h <;> rw [h] <;> simp [JVal.asStr]
      refine ⟨⟨?_, ?_, ?_⟩, ?_⟩
      · intro t ht
        rw [List.mem_append] at ht
        rcases ht with ht | ht
        · exact Nat.le_succ_of_le (hIds t ht)
        · rw [List.mem_singleton] at ht
          subst ht
          exact Nat.le_refl _
      · rw [List.pairwise_append]
        refine ⟨hPw, List.pairwise_singleton _ _, ?_⟩
        intro a ha b hb
        rw [List.mem_singleton] at hb
        subst hb
        have := hIds a ha
        simp only []
        omega
      · intro t ht
        rw [List.mem_append] at ht
        rcases ht with ht | ht
        · exact hWf t ht
        · rw [List.mem_singleton] at ht
          subst ht
          refine ⟨hvs, ?_⟩
          show pyStrip x ≠ ""
          rw [hxt]
          exact hxne
      · intro id t t' h1 h2
        unfold dbFind at h1 h2
        rw [List.find?_append] at h2
        rw [h1] at h2
        simp at h2
        rw [h2]
  | modify id body =>
    rcases step_modify s id body with hs | hs
    · rw [hs]; exact ⟨⟨hIds, hPw, hWf⟩, triv⟩
    · rw [hs]
      refine ⟨⟨?_, ?_, ?_⟩, ?_⟩
      · intro t ht
        rw [List.mem_map] at ht
        obtain ⟨u, hu, hfu⟩ := ht
        rw [← hfu, applyUpdates_task_id]
        exact hIds u hu
      · rw [List.pairwise_map]
        apply List.Pairwise.imp ?_ hPw
        intro a b hab
        rw [applyUpdates_task_id, applyUpdates_task_id]
        exact hab
      · intro t ht
        rw [List.mem_map] at ht
        obtain ⟨u, hu, hfu⟩ := ht
        rw [← hfu]
        exact applyUpdates_wf id (body.getD []) u (hWf u hu)
      · intro id₂ t t' h1 h2
        unfold dbFind at h1 h2
        rw [dbFind_map_applyUpdates] at h2
        rw [h1] at h2
        simp at h2
        rw [← h2, applyUpdates_created_at]
  | remove id =>
    rcases step_remove s id with hs | hs
    · rw [hs]; exact ⟨⟨hIds, hPw, hWf⟩, triv⟩
    · rw [hs]
      refine ⟨⟨?_, ?_, ?_⟩, ?_⟩
      · intro t ht
        rw [List.mem_filter] at ht
        exact hIds t ht.1
      · exact hPw.sublist (List.filter_sublist _)
      · intro t ht
        rw [List.mem_filter] at ht
        exact hWf t ht.1
      · intro id₂ t t' h1 h2
        by_cases hcase : id₂ = id
        · subst hcase
          exfalso
          have hnone : dbFind ⟨s.tasks.filter (fun u => !(u.task_id == id₂)), s.seq⟩ id₂
              = none := by
            unfold dbFind
            rw [List.find?_eq_none]
            intro x hx
            rw [List.mem_filter] at hx
            simpa using hx.2
          rw [hnone] at h2
          exact Option.noConfusion h2
        · have hfe : dbFind ⟨s.tasks.filter (fun u => !(u.task_id == id)), s.seq⟩ id₂
              = dbFind s id₂ := by
            unfold dbFind
            exact find?_filter_of_imp _ _ _ (by
              intro a ha
              simp at ha ⊢
              omega)
          rw [hfe, h1] at h2
          injection h2 with h3
          rw [h3]

lemma seq_le_step (s : Store) (op : Op) : s.seq ≤ (step s op).seq := by
  cases op with
  | fetchAll => rw [step_fetchAll]
  | fetch id => rw [step_fetch]
  | create now body =>
    rcases step_create now body s with hs | ⟨x, v, _, _, _, hs⟩
    · rw [hs]
    · rw [hs]; exact Nat.le_succ _
  | modify id body =>
    rcases step_modify s id body with hs | hs
    · rw [hs]
    · rw [hs]
  | remove id =>
    rcases step_remove s id with hs | hs
    · rw [hs]
    · rw [hs]

lemma op_201 (s : Store) (op : Op) (resp : HttpResponse) (s' : Store)
    (h : applyOp s op = Outcome.ok resp s') (h201 : resp.status = 201) :
    (∃ row, resp.body = Body.task row ∧ row.task_id = s.seq + 1)
    ∧ s'.seq = s.seq + 1 := by
  cases op with
  | create now body =>
    simp only [applyOp] at h
    unfold create_task at h
    rw [if_pos rfl] at h
    split at h
    · injection h with h1 h2; rw [← h1] at h201; simp at h201
    · dsimp only at h
      split at h
      · injection h with h1 h2; rw [← h1] at h201; simp at h201
      · split at h
        · split at h
          · rename_i row heq
            injection h with h1 h2
            have hid := List.find?_some heq
            simp at hid
            refine ⟨⟨row, ?_, hid⟩, ?_⟩
            · rw [← h1]
            · rw [← h2]
          · injection h with h1 h2; rw [← h1] at h201; simp at h201
        · injection h with h1 h2; rw [← h1] at h201; simp at h201
  | fetchAll =>
    simp only [applyOp] at h
    unfold fetch_all_tasks at h
    rw [if_pos rfl] at h
    injection h with h1 h2; rw [← h1] at h201; simp at h201
  | fetch id =>
    simp only [applyOp] at h
    unfold fetch_task at h
    rw [if_pos rfl] at h
    split at h <;> (injection h with h1 h2; rw [← h1] at h201; simp at h201)
  | modify id body =>
    simp only [applyOp] at h
    unfold modify_task at h
    rw [if_pos rfl] at h
    split at h
    · injection h with h1 h2; rw [← h1] at h201; simp at h201
    · dsimp only at h
      split at h
      · injection h with h1 h2; rw [← h1] at h201; simp at h201
      · split at h
        · injection h with h1 h2; rw [← h1] at h201; simp at h201
        · split at h <;> (injection h with h1 h2; rw [← h1] at h201; simp at h201)
  | remove id =>
    simp only [applyOp] at h
    unfold remove_task at h
    rw [if_pos rfl] at h
    split at h <;> (injection h with h1 h2; rw [← h1] at h201; simp at h201)

lemma assignedId_some (o : Outcome) (i : Nat) (h : assignedId o = some i) :
    ∃ resp s', o = Outcome.ok resp s' ∧ resp.status = 201
      ∧ ∃ row, resp.body = Body.task row ∧ row.task_id = i := by
  unfold assignedId at h
  split at h
  · rename_i resp s'
    split at h
    · rename_i h201
      split at h
      · rename_i row hbody
        injection h with h1
        exact ⟨resp, s', rfl, by simpa using h201, row, hbody, h1⟩
      · exact Option.noConfusion h
    · exact Option.noConfusion h
  · exact Option.noConfusion h

lemma assigned_bounds (s : Store) (op : Op) (i : Nat)
    (h : assignedId (applyOp s op) = some i) :
    i = s.seq + 1 ∧ (step s op).seq = s.seq + 1 := by
  obtain ⟨resp, s', ho, h201, row, hbody, hid⟩ := assignedId_some _ _ h
  obtain ⟨⟨row', hb', hid'⟩, hseq⟩ := op_201 s op resp s' ho h201
  have hrr : row = row' := by
    rw [hbody] at hb'
    injection hb'
  constructor
  · rw [← hid, hrr, hid']
  · show (applyOp s op).store.seq = s.seq + 1
    rw [ho]
    exact hseq

lemma runTrace_lb (ops : List Op) : ∀ (s : Store), ∀ j ∈ runTrace s ops, s.seq < j := by
  induction ops with
  | nil => intro s j hj; simp [runTrace] at hj
  | cons op ops ih =>
    intro s j hj
    unfold runTrace at hj
    rw [List.mem_append] at hj
    rcases hj with hj | hj
    · cases ha : assignedId (applyOp s op) with
      | none => rw [ha] at hj; simp at hj
      | some i =>
        rw [ha] at hj
        simp at hj
        subst hj
        have hb := (assigned_bounds s op j ha).1
        omega
    · have h1 := ih (step s op) j hj
      have h2 := seq_le_step s op
      omega

/-- Claim C7: along any run of operations, the task ids handed out by the
201 create responses are pairwise strictly increasing in assignment order,
so each newly assigned id is strictly greater than - and in particular
distinct from - every previously assigned id. -/
theorem create_ids_strictly_increase (s : Store) (ops : List Op) :
    (runTrace s ops).Pairwise (fun a b => a < b) := by
  induction ops generalizing s with
  | nil => exact List.Pairwise.nil
  | cons op ops ih =>
    unfold runTrace
    cases ha : assignedId (applyOp s op) with
    | none =>
      simp only [List.nil_append]
      exact ih (step s op)
    | some i =>
      simp only [List.singleton_append]
      rw [List.pairwise_cons]
      constructor
      · intro j hj
        have hlb := runTrace_lb ops (step s op) j hj
        have hb := assigned_bounds s op i ha
        omega
      · exact ih (step s op)

lemma titlesTrimmed_step (s : Store) (op : Op) (h : titlesTrimmed s) :
    titlesTrimmed (step s op) := by
  cases op with
  | fetchAll => rw [step_fetchAll]; exact h
  | fetch id => rw [step_fetch]; exact h
  | create now body =>
    rcases step_create now body s with hs | ⟨x, v, hx, _, _, hs⟩
    · rw [hs]; exact h
    · rw [hs]
      intro t ht
      rw [List.mem_append] at ht
      rcases ht with ht | ht
      · exact h t ht
      · rw [List.mem_singleton] at ht
        subst ht
        exact (updTitleOf_some _ _ hx).1
  | modify id body =>
    rcases step_modify s id body with hs | hs
    · rw [hs]; exact h
    · rw [hs]
      intro t ht
      rw [List.mem_map] at ht
      obtain ⟨u, hu, hfu⟩ := ht
      rw [← hfu]
      unfold applyUpdates
      split
      · cases hT : updTitleOf (body.getD []) with
        | none => simpa using h u hu
        | some x => simpa using (updTitleOf_some _ _ hT).1
      · exact h u hu
  | remove id =>
    rcases step_remove s id with hs | hs
    · rw [hs]; exact h
    · rw [hs]
      intro t ht
      rw [List.mem_filter] at ht
      exact h t ht.1

/-- Claim C10: in every store state reachable from the initial database by
any sequence of API operations, every stored title is free of leading and
trailing whitespace (stripping it again changes nothing); concretely, an
update supplied with a whitespace-padded title stores the stripped title,
not the verbatim input. -/
theorem stored_titles_always_trimmed (ops : List Op) :
    titlesTrimmed (ops.foldl step setup_database)
    ∧ modify_task true sampleStore 1 (some [("task_title", JVal.str "  padded  ")])
      = Outcome.ok ⟨200, Body.task ⟨1, "padded", "pending", "T0"⟩⟩
          ⟨[⟨1, "padded", "pending", "T0"⟩], 1⟩ := by
  constructor
  · have gen : ∀ (l : List Op) (s : Store),
        titlesTrimmed s → titlesTrimmed (l.foldl step s) := by
      intro l
      induction l with
      | nil => intro s h; exact h
      | cons op l ih =>
        intro s h
        exact ih (step s op) (titlesTrimmed_step s op h)
    exact gen ops setup_database (by intro t ht; simp [setup_database] at ht)
  · decide

/-- Witness for store_invariant_preserved: the sample store satisfies the
invariant and a concrete create preserves it. -/
theorem store_invariant_preserved_witness :
    Store.inv sampleStore
    ∧ (Store.inv (step sampleStore (Op.create "T1" (some [("task_title", JVal.str "B")])))
      ∧ ∀ id t t', dbFind sampleStore id = some t
          → dbFind (step sampleStore (Op.create "T1" (some [("task_title", JVal.str "B")]))) id
              = some t'
          → t'.created_at = t.created_at) :=
  ⟨by unfold Store.inv Task.wf; decide,
    store_invariant_preserved sampleStore
      (Op.create "T1" (some [("task_title", JVal.str "B")])) (by unfold Store.inv Task.wf; decide)⟩

end TaskManager
